/-
Verification of the FOIL classification dataset adapter
(`multimodal_bert/datasets/foil_dataset.py`) against its specification.

The Python module is shallowly embedded: the annotation index (a Python
`dict` keyed by image id, insertion-ordered) becomes an association list
`List (Int × List Record)`; fallible Python operations (JSON parsing,
dict/list subscripting, attribute access) become `Except PyError`
computations; the dynamic-typing failures of the source (subscripting an
`int` with a string, subscripting a `list` with a string) are embedded as
the `TypeError` they raise at runtime.
-/
import Mathlib

set_option autoImplicit false

namespace FoilDataset

/-- The Python exception classes raised by the code paths modelled here.
`jsonDecodeError` is `json.JSONDecodeError` (malformed input to `json.load`);
`keyError` is `KeyError` from a failed `dict` subscript; `typeError` is
`TypeError` from subscripting an `int` or a `list` with a string key;
`indexError` is `IndexError` from an out-of-range `list` subscript. -/
inductive PyError where
  | jsonDecodeError
  | keyError
  | typeError
  | indexError
  deriving DecidableEq, Repr

deriving instance DecidableEq for Except

/-- The spec's ParseError taxonomy class (§7): the failures of the
annotation loader — malformed JSON, or the missing `"annotations"` key
(a `KeyError` on the top-level document). -/
def IsParseError : PyError → Bool
  | .jsonDecodeError => true
  | .keyError => true
  | .typeError => false
  | .indexError => false

/-- A record of the `"annotations"` array of the input JSON document:
at least `image_id`, `caption`, `foil`; `extra` stands for any further
fields of the source object (§6: "Unrecognized extra fields are ignored"). -/
structure RawAnn where
  image_id : Int
  caption : String
  foil : Bool
  extra : List (String × String)
  deriving DecidableEq, Repr

/-- The per-record content kept by `_load_annotations` (line 25 of the
source): only the `caption` and `foil` fields. -/
structure Record where
  caption : String
  foil : Bool
  deriving DecidableEq, Repr

/-- The annotation index: the Python dict `entries` of `_load_annotations`,
mapping each image id to its list of records, in key-insertion order. -/
abbrev Entries := List (Int × List Record)

/-- The dict literal `{"caption": annotation["caption"],
"foil": annotation["foil"]}` appended at lines 24–26. -/
def recordOf (a : RawAnn) : Record :=
  { caption := a.caption, foil := a.foil }

/-- One iteration of the loop of `_load_annotations` (lines 19–26): if
`annotation["image_id"]` is not yet a key, bind it to a fresh empty list;
then append the `{caption, foil}` record to that key's list. -/
def insertAnn (entries : Entries) (a : RawAnn) : Entries :=
  if entries.any (fun p => p.1 == a.image_id) then
    entries.map (fun p =>
      if p.1 == a.image_id then (p.1, p.2 ++ [recordOf a]) else p)
  else
    entries ++ [(a.image_id, [recordOf a])]

/-- The index-building loop of `_load_annotations` over the parsed
`"annotations"` array (lines 17–27). -/
def buildIndex (anns : List RawAnn) : Entries :=
  anns.foldl insertAnn []

/-- The input to `_load_annotations`, as seen through `json.load`:
either not valid JSON, or a parsed document whose `"annotations"` key is
present (with its array of records) or absent. -/
inductive JsonInput where
  | invalid
  | doc (annotations : Option (List RawAnn))

/-- The function `_load_annotations` (lines 11–27): `json.load` raises on
malformed input; `annotations_json["annotations"]` raises `KeyError` when
the key is absent; otherwise the grouping loop builds the index. -/
def loadAnnotations : JsonInput → Except PyError Entries
  | .invalid => .error .jsonDecodeError
  | .doc none => .error .keyError
  | .doc (some anns) => .ok (buildIndex anns)

/-- Python dict subscript `d[k]` on the embedded insertion-ordered dict:
the value at the (first) matching key, `KeyError` when absent. -/
def dictGet {α : Type} (d : List (Int × α)) (k : Int) : Except PyError α :=
  match d.find? (fun p => p.1 == k) with
  | some p => .ok p.2
  | none => .error .keyError

/-- Python list subscript `xs[index]` with an `int` index: a negative
index counts from the end (`index + len(xs)`); out of range raises
`IndexError`. -/
def pyListGet {α : Type} (xs : List α) (index : Int) : Except PyError α :=
  let j : Int := if index < 0 then index + xs.length else index
  if 0 ≤ j then
    match xs.get? j.toNat with
    | some a => .ok a
    | none => .error .indexError
  else
    .error .indexError

/-- The external tokenizer collaborator (§6): `tokenize(text)` yields
subword strings, and `vocab` maps token strings to integer ids (embedded,
like the annotation dict, as an ordered association list). -/
structure Tokenizer where
  tokenize : String → List String
  vocab : List (String × Nat)

/-- The external image-feature store collaborator (§6): keyed lookup
`reader[image_id] -> numeric array`. Embedded as an association list;
`getitem` subscripts it through `dictGet`, so a missing id raises the
`KeyError`-class failure of §7. -/
abbrev FeaturesReader := List (Int × List Int)

/-- The subscript `entry["caption"]` at line 62 of `tokenize`, where
`entry` ranges over `self._entries` — a dict, so iteration yields its KEYS
(the image ids, integers): subscripting a Python `int` with a string
raises `TypeError`. -/
def intGetField (_entry : Int) (_field : String) : Except PyError String :=
  .error .typeError

/-- The loop of `FoilClassificationDataset.tokenize` (lines 61–76).
`for i, entry in enumerate(self._entries)` enumerates the dict's keys, so
each `entry` is an image id; the body's first evaluated expression,
`entry["caption"]` (line 62), raises `TypeError`, so none of the rest of
the body (the `[CLS]`/`[SEP]` wrapping, vocab lookup, truncation, padding,
and the write-back `self._entries[i]["caption"] = tokens`) is ever
reached. On an empty dict the loop body never runs and the pass
completes. -/
def tokenizeRun : Entries → Except PyError Unit
  | [] => .ok ()
  | (key, _) :: rest => do
    let _ ← intGetField key "caption"
    tokenizeRun rest

/-- The read-only state built by `FoilClassificationDataset.__init__`
(lines 41–53): the annotation index `self._entries`, the key list
`self._image_ids = list(self._entries.keys())`, and the two integer
configuration fields. The tokenizer stored at line 47 is omitted from the
state: the only post-construction code that mentions it
(`self._tokenizer.tokenize(entry["caption"])`, line 62) fails while
evaluating its argument, so the tokenizer is never invoked. -/
structure Dataset where
  entries : Entries
  image_ids : List Int
  max_caption_length : Nat
  padding_index : Nat
  deriving DecidableEq, Repr

/-- The dataset state as assembled from a loaded index (lines 41, 45, 48
and 53): `_image_ids` is the key list of the entries dict. Claims about
`__len__`/`__getitem__` are settled on this state; the theorem for the
tokenization pass (line 50) records separately that on any nonempty index
that pass raises before reaching line 53. -/
def datasetOf (anns : List RawAnn) (maxLen pad : Nat) : Dataset :=
  let entries := buildIndex anns
  { entries := entries
    image_ids := entries.map Prod.fst
    max_caption_length := maxLen
    padding_index := pad }

/-- The constructor `FoilClassificationDataset.__init__` (lines 31–53) end
to end: load the annotation index (line 41), run the tokenization pass
(line 50), then capture the image-id key list (line 53). The
`ImageFeaturesH5Reader` opened at line 42 is the external collaborator
passed to `getitem`. -/
def construct (input : JsonInput) (_tokenizer : Tokenizer) (maxLen pad : Nat) :
    Except PyError Dataset := do
  let entries ← loadAnnotations input
  tokenizeRun entries
  pure { entries := entries
         image_ids := entries.map Prod.fst
         max_caption_length := maxLen
         padding_index := pad }

/-- The method `__len__` (lines 92–93): `len(self._entries)` — the number
of keys of the annotation dict, i.e. of distinct image ids. -/
def lenOf (ds : Dataset) : Nat :=
  ds.entries.length

/-- The subscripts `entry["caption"]` / `entry["foil"]` at lines 84–85 of
`__getitem__`, where `entry = self._entries[image_id]` is the per-image
LIST of records: subscripting a Python `list` with a string raises
`TypeError`. -/
def listGetField (α : Type) (_entry : List Record) (_field : String) :
    Except PyError α :=
  .error .typeError

/-- A returned sample would be the 4-tuple
(features, spatials = None, caption tensor, target tensor). -/
abbrev Sample := List Int × Option Unit × List Nat × Nat

/-- The method `__getitem__` (lines 78–90): resolve `index` through the Python list
`self._image_ids` (line 79), fetch the per-image entry from the dict
(line 80), fetch the features from the reader (line 82), then read
`entry["caption"]` (line 84) and `entry["foil"]` (line 85) and return the
4-tuple with `spatials = None` (lines 88–90). -/
def getitem (ds : Dataset) (reader : FeaturesReader) (index : Int) :
    Except PyError Sample := do
  let image_id ← pyListGet ds.image_ids index
  let entry ← dictGet ds.entries image_id
  let features ← dictGet reader image_id
  let caption ← listGetField (List Nat) entry "caption"
  let target ← listGetField Nat entry "foil"
  pure (features, none, caption, target)

/-- The vocab lookup of lines 66–70:
`vocab[w] if w in vocab else vocab["[UNK]"]`. Membership and subscript on
the embedded dict are one `find?`; when `w` is absent, the `"[UNK]"`
subscript itself raises `KeyError` if that reserved entry were missing
(§6 guarantees it is present). -/
def wordToId (vocab : List (String × Nat)) (w : String) : Except PyError Nat :=
  match vocab.find? (fun p => p.1 == w) with
  | some p => .ok p.2
  | none =>
    match vocab.find? (fun p => p.1 == "[UNK]") with
    | some p => .ok p.2
    | none => .error .keyError

/-- The accumulation loop of lines 65–70: map each token of the wrapped
sentence to its id, in order. -/
def mapTokens (vocab : List (String × Nat)) : List String → Except PyError (List Nat)
  | [] => .ok []
  | w :: ws => do
    let n ← wordToId vocab w
    let rest ← mapTokens vocab ws
    pure (n :: rest)

/-- Modelled from the spec: the per-caption encoding contract
`encode(caption, tokenizer, max_length, padding_id)` of §4.2, which the
source only realizes inlined as the loop body of `tokenize`
(lines 62–75) and never as a callable unit. The algorithm is taken from
those lines — `[CLS]`/`[SEP]` wrapping (lines 62–63), vocab mapping with
`[UNK]` fallback (lines 65–70), prefix truncation `tokens[:max_length]`
(line 71), front padding (lines 72–75) — with the vocabulary and the
padding id bound per §4.2/§6 to the constructor-supplied collaborators:
in the source those two are reached through `self.tokenizer.vocab` and
`self.dictionary.padding_idx`, attribute references that do not resolve
on the object (the pass's failure on any nonempty index is recorded by
the construction theorems). -/
def encode (tokenizer : Tokenizer) (maxLength paddingId : Nat) (caption : String) :
    Except PyError (List Nat) := do
  let sentence_tokens := ["[CLS]"] ++ tokenizer.tokenize caption ++ ["[SEP]"]
  let tokens ← mapTokens tokenizer.vocab sentence_tokens
  let tokens := tokens.take maxLength
  let tokens :=
    if tokens.length < maxLength then
      List.replicate (maxLength - tokens.length) paddingId ++ tokens
    else tokens
  pure tokens

/-- Total description of the lines 66–70 lookup under the §6 guarantee
that `"[UNK]"` is in the vocabulary (used to state what `encode`
computes). -/
def wordToIdTotal (vocab : List (String × Nat)) (w : String) : Nat :=
  match vocab.find? (fun p => p.1 == w) with
  | some p => p.2
  | none => ((vocab.find? (fun p => p.1 == "[UNK]")).map Prod.snd).getD 0

/-- The `[CLS]...[SEP]`-wrapped, vocab-mapped id sequence of a caption
(the value of `tokens` after line 70, before truncation and padding). -/
def fullIds (tokenizer : Tokenizer) (caption : String) : List Nat :=
  (["[CLS]"] ++ tokenizer.tokenize caption ++ ["[SEP]"]).map
    (wordToIdTotal tokenizer.vocab)

/-- First-occurrence order of the distinct elements of a list: the key
order a Python dict acquires while the grouping loop inserts ids. -/
def firstOccurrences (ids : List Int) : List Int :=
  ids.foldl (fun acc i => if acc.any (fun j => j == i) then acc else acc ++ [i]) []

/-- Concrete inputs used to exercise the definitions. -/
def exTokenizer : Tokenizer :=
  { tokenize := fun _ => ["a", "dog"]
    vocab := [("[CLS]", 1), ("[SEP]", 2), ("[UNK]", 3), ("a", 4), ("dog", 5)] }

/-- The §8 example annotations: ids `[5, 5, 7]` with captions
`"a"`, `"b"`, `"c"`; the first record carries an unrelated extra field. -/
def exGroup : List RawAnn :=
  [ { image_id := 5, caption := "a", foil := false, extra := [("id", "9")] }
  , { image_id := 5, caption := "b", foil := true, extra := [] }
  , { image_id := 7, caption := "c", foil := false, extra := [] } ]

/-- The §8 end-to-end example: two annotation records for the single
image id 1. -/
def exDup : List RawAnn :=
  [ { image_id := 1, caption := "a dog", foil := false, extra := [] }
  , { image_id := 1, caption := "a cat", foil := true, extra := [] } ]

/-- A feature store holding the single image id 1. -/
def exReader : FeaturesReader := [(1, [3, 1, 4])]

/-- A single-record annotations array for image id 1. -/
def exSingle : List RawAnn :=
  [ { image_id := 1, caption := "a dog", foil := false, extra := [] } ]

/-- Two-image annotations array (ids 4 then 9), for the negative-index
claim. -/
def exTwo : List RawAnn :=
  [ { image_id := 4, caption := "a", foil := false, extra := [] }
  , { image_id := 9, caption := "b", foil := true, extra := [] } ]

/-- A feature store holding both image ids of `exTwo`. -/
def exReaderTwo : FeaturesReader := [(4, [6]), (9, [8])]

/-- The list of records the index associates to an image id (the empty
list when the id is not a key). Used to state the grouping properties of
`buildIndex`. -/
def lookupList (entries : Entries) (i : Int) : List Record :=
  ((entries.find? (fun p => p.1 == i)).map Prod.snd).getD []

/- ------------------------------------------------------------------ -/
/- Lemmas about the index builder.                                     -/
/- ------------------------------------------------------------------ -/

theorem lookupList_insertAnn (e : Entries) (a : RawAnn) (i : Int) :
    lookupList (insertAnn e a) i =
      if a.image_id = i then lookupList e i ++ [recordOf a]
      else lookupList e i := by
  unfold insertAnn
  by_cases hany : e.any (fun p => p.1 == a.image_id)
  · simp only [hany, if_true]
    rw [lookupList, List.find?_map]
    have hpred : (fun p : Int × List Record => p.1 == i) ∘
        (fun p : Int × List Record =>
          if p.1 == a.image_id then (p.1, p.2 ++ [recordOf a]) else p)
        = (fun p : Int × List Record => p.1 == i) := by
      funext p
      by_cases hp : p.1 = a.image_id <;> simp [hp]
    rw [hpred]
    by_cases hi : a.image_id = i
    · subst hi
      rcases hfind : e.find? (fun p => p.1 == a.image_id) with _ | q
      · exfalso
        rw [List.find?_eq_none] at hfind
        rcases List.any_eq_true.mp hany with ⟨p, hp, hpa⟩
        exact hfind p hp hpa
      · have hq := List.find?_some hfind
        have hq' : q.1 = a.image_id := by simpa using hq
        simp [lookupList, hfind, hq']
    · rcases hfind : e.find? (fun p => p.1 == i) with _ | q
      · simp [lookupList, hfind, hi]
      · have hq := List.find?_some hfind
        have hq' : q.1 = i := by simpa using hq
        have hqa : (q.1 == a.image_id) = false := by
          rw [hq']
          simp only [beq_eq_false_iff_ne, ne_eq]
          exact fun h => hi h.symm
        have hqa' : ¬q.1 = a.image_id := by simpa using hqa
        simp [lookupList, hfind, hi, hqa']
  · rw [if_neg hany]
    have hnone : e.find? (fun p => p.1 == a.image_id) = none := by
      rw [List.find?_eq_none]
      intro p hp hpa
      exact hany (List.any_eq_true.mpr ⟨p, hp, hpa⟩)
    by_cases hi : a.image_id = i
    · subst hi
      simp [lookupList, List.find?_append, hnone]
    · have hne : (((a.image_id, [recordOf a]) : Int × List Record).1 == i) = false := by
        simpa using hi
      rw [lookupList, lookupList, List.find?_append]
      rcases hfind : e.find? (fun p => p.1 == i) with _ | q <;>
        simp [hfind, hne, hi]

theorem lookupList_foldl (anns : List RawAnn) :
    ∀ (acc : Entries) (i : Int),
      lookupList (anns.foldl insertAnn acc) i =
        lookupList acc i ++ (anns.filter (fun a => a.image_id == i)).map recordOf := by
  induction anns with
  | nil => intro acc i; simp
  | cons a anns ih =>
    intro acc i
    rw [List.foldl_cons, ih, lookupList_insertAnn]
    by_cases hi : a.image_id = i
    · simp [List.filter_cons, hi]
    · simp [List.filter_cons, hi]

theorem keys_insertAnn (e : Entries) (a : RawAnn) :
    (insertAnn e a).map Prod.fst =
      if e.any (fun p => p.1 == a.image_id) then e.map Prod.fst
      else e.map Prod.fst ++ [a.image_id] := by
  unfold insertAnn
  by_cases hany : e.any (fun p => p.1 == a.image_id)
  · rw [if_pos hany, if_pos hany, List.map_map]
    have hcomp : Prod.fst ∘
        (fun p : Int × List Record =>
          if p.1 == a.image_id then (p.1, p.2 ++ [recordOf a]) else p)
        = (Prod.fst : Int × List Record → Int) := by
      funext p
      by_cases hp : p.1 = a.image_id <;> simp [hp]
    rw [hcomp]
  · rw [if_neg hany, if_neg hany]
    simp

theorem keys_foldl (anns : List RawAnn) :
    ∀ acc : Entries,
      (anns.foldl insertAnn acc).map Prod.fst =
        (anns.map (fun a => a.image_id)).foldl
          (fun ks i => if ks.any (fun j => j == i) then ks else ks ++ [i])
          (acc.map Prod.fst) := by
  induction anns with
  | nil => intro acc; simp
  | cons a anns ih =>
    intro acc
    rw [List.foldl_cons, ih, List.map_cons, List.foldl_cons]
    congr 1
    rw [keys_insertAnn]
    have hswap : ((List.map Prod.fst acc).any fun j => j == a.image_id)
        = (acc.any fun p => p.1 == a.image_id) := by
      induction acc with
      | nil => rfl
      | cons q qs ihq => simp [ihq]
    rw [hswap]

theorem length_le_foldl_insertAnn (anns : List RawAnn) :
    ∀ acc : Entries, acc.length ≤ (anns.foldl insertAnn acc).length := by
  induction anns with
  | nil => intro acc; simp
  | cons a anns ih =>
    intro acc
    rw [List.foldl_cons]
    refine le_trans ?_ (ih _)
    unfold insertAnn
    by_cases h : acc.any (fun p => p.1 == a.image_id) <;> simp [h]

theorem buildIndex_cons_ne_nil (a : RawAnn) (anns : List RawAnn) :
    buildIndex (a :: anns) ≠ [] := by
  have h := length_le_foldl_insertAnn anns (insertAnn [] a)
  have h1 : (insertAnn [] a).length = 1 := by simp [insertAnn]
  intro hcontra
  rw [buildIndex, List.foldl_cons] at hcontra
  rw [hcontra, h1] at h
  simp at h

theorem tokenizeRun_cons (p : Int × List Record) (rest : Entries) :
    tokenizeRun (p :: rest) = .error .typeError := by
  rcases p with ⟨k, v⟩
  rfl

theorem bind_ok_eq {ε α β : Type} (x : α) (f : α → Except ε β) :
    ((Except.ok x : Except ε α) >>= f) = f x := rfl

theorem bind_error_eq {ε α β : Type} (e : ε) (f : α → Except ε β) :
    ((Except.error e : Except ε α) >>= f) = Except.error e := rfl

theorem construct_doc_some (anns : List RawAnn) (tk : Tokenizer) (maxLen pad : Nat) :
    construct (.doc (some anns)) tk maxLen pad =
      (tokenizeRun (buildIndex anns) >>= fun _ =>
        Except.ok (datasetOf anns maxLen pad)) := rfl

theorem wordToId_total (vocab : List (String × Nat)) (w : String)
    (h : (vocab.find? (fun p => p.1 == "[UNK]")).isSome) :
    wordToId vocab w = .ok (wordToIdTotal vocab w) := by
  unfold wordToId wordToIdTotal
  rcases hw : vocab.find? (fun p => p.1 == w) with _ | q
  · rw [hw]
    rcases hu : vocab.find? (fun p => p.1 == "[UNK]") with _ | q
    · rw [hu] at h
      simp at h
    · rw [hu]
      simp
  · rw [hw]

theorem mapTokens_total (vocab : List (String × Nat))
    (h : (vocab.find? (fun p => p.1 == "[UNK]")).isSome) :
    ∀ ws : List String, mapTokens vocab ws = .ok (ws.map (wordToIdTotal vocab)) := by
  intro ws
  induction ws with
  | nil => rfl
  | cons w ws ih =>
    show (wordToId vocab w >>= fun n =>
      mapTokens vocab ws >>= fun rest => pure (n :: rest)) = _
    rw [wordToId_total vocab w h, ih, bind_ok_eq, bind_ok_eq]
    rfl

theorem encode_eq (tk : Tokenizer) (maxLen pad : Nat) (caption : String)
    (h : (tk.vocab.find? (fun p => p.1 == "[UNK]")).isSome) :
    encode tk maxLen pad caption = .ok (
      if (fullIds tk caption).length < maxLen then
        List.replicate (maxLen - (fullIds tk caption).length) pad ++ fullIds tk caption
      else (fullIds tk caption).take maxLen) := by
  have hfull : mapTokens tk.vocab (["[CLS]"] ++ tk.tokenize caption ++ ["[SEP]"])
      = .ok (fullIds tk caption) := mapTokens_total tk.vocab h _
  show (mapTokens tk.vocab (["[CLS]"] ++ tk.tokenize caption ++ ["[SEP]"]) >>= fun tokens =>
      pure (if (tokens.take maxLen).length < maxLen then
        List.replicate (maxLen - (tokens.take maxLen).length) pad ++ tokens.take maxLen
      else tokens.take maxLen)) = _
  rw [hfull, bind_ok_eq]
  by_cases hlen : (fullIds tk caption).length < maxLen
  · have htake : (fullIds tk caption).take maxLen = fullIds tk caption :=
      List.take_of_length_le (le_of_lt hlen)
    rw [htake]
    simp only [hlen, if_true]
    rfl
  · have hge : maxLen ≤ (fullIds tk caption).length := Nat.le_of_not_lt hlen
    have htake : ((fullIds tk caption).take maxLen).length = maxLen := by
      rw [List.length_take]
      exact Nat.min_eq_left hge
    rw [htake]
    simp only [hlen, Nat.lt_irrefl, if_false]
    rfl

theorem pyListGet_nonneg {α : Type} (xs : List α) (i : Nat) (h : i < xs.length) :
    ∃ a, pyListGet xs (i : Int) = .ok a ∧ xs.get? i = some a := by
  simp only [pyListGet]
  have h0 : ¬((i : Int) < 0) := by
    simp
  rw [if_neg h0]
  have h1 : (0 : Int) ≤ (i : Int) := Int.ofNat_nonneg i
  rw [if_pos h1]
  have h2 : ((i : Int)).toNat = i := rfl
  rw [h2]
  rcases hg : xs.get? i with _ | a
  · rw [List.get?_eq_none] at hg
    omega
  · exact ⟨a, rfl, rfl⟩

theorem pyListGet_neg {α : Type} (xs : List α) (k : Nat) (h1 : 1 ≤ k) (h2 : k ≤ xs.length) :
    ∃ a, pyListGet xs (-(k : Int)) = .ok a ∧ xs.get? (xs.length - k) = some a := by
  simp only [pyListGet]
  have hneg : (-(k : Int)) < 0 := by
    have hk : (0 : Int) < (k : Int) := by exact_mod_cast h1
    omega
  rw [if_pos hneg]
  have h0 : (0 : Int) ≤ -(k : Int) + xs.length := by
    have hk2 : (k : Int) ≤ (xs.length : Int) := by exact_mod_cast h2
    omega
  rw [if_pos h0]
  have ht : (-(k : Int) + xs.length).toNat = xs.length - k := by
    omega
  rw [ht]
  rcases hg : xs.get? (xs.length - k) with _ | a
  · rw [List.get?_eq_none] at hg
    omega
  · exact ⟨a, rfl, rfl⟩

theorem dictGet_mem {α : Type} (d : List (Int × α)) (k : Int)
    (h : k ∈ d.map Prod.fst) :
    ∃ v, dictGet d k = .ok v := by
  unfold dictGet
  rcases hf : d.find? (fun p => p.1 == k) with _ | q
  · exfalso
    rw [List.find?_eq_none] at hf
    rcases List.mem_map.mp h with ⟨p, hp, hpk⟩
    exact hf p hp (by simp [hpk])
  · rw [hf]
    exact ⟨q.2, rfl⟩

theorem dictGet_error {α : Type} (d : List (Int × α)) (k : Int) (e : PyError)
    (h : dictGet d k = .error e) : e = .keyError := by
  unfold dictGet at h
  rcases hf : d.find? (fun p => p.1 == k) with _ | q <;> rw [hf] at h
  · cases h
    rfl
  · cases h

theorem getitem_ne_indexError (ds : Dataset) (reader : FeaturesReader) (index : Int)
    (hok : ∃ i, pyListGet ds.image_ids index = .ok i ∧ i ∈ ds.entries.map Prod.fst) :
    getitem ds reader index ≠ .error .indexError := by
  rcases hok with ⟨i, hres, hmem⟩
  show (pyListGet ds.image_ids index >>= fun image_id =>
    dictGet ds.entries image_id >>= fun entry =>
    dictGet reader image_id >>= fun features =>
    listGetField (List Nat) entry "caption" >>= fun caption =>
    listGetField Nat entry "foil" >>= fun target =>
    pure (features, none, caption, target)) ≠ _
  rw [hres, bind_ok_eq]
  rcases dictGet_mem ds.entries i hmem with ⟨entry, hentry⟩
  rw [hentry, bind_ok_eq]
  rcases hr : dictGet reader i with e | features
  · rw [bind_error_eq]
    have he : e = .keyError := dictGet_error reader i e hr
    subst he
    intro hcontra
    cases hcontra
  · rw [bind_ok_eq]
    show (Except.error PyError.typeError >>= _) ≠ _
    rw [bind_error_eq]
    intro hcontra
    cases hcontra

/- ------------------------------------------------------------------ -/
/- Claim theorems.                                                     -/
/- ------------------------------------------------------------------ -/

/-- C5: for every valid annotations input, `build_index` groups every
record under its `image_id`, preserving the per-image order of records
and keeping only the `caption` and `foil` fields; on the example with
image ids `[5, 5, 7]` and captions `a`, `b`, `c` (the first record
carrying an unrelated extra field), the index maps 5 to `[a, b]` in
order and 7 to `[c]`, with the extra field discarded. -/
theorem C5_build_index_groups :
    (∀ (anns : List RawAnn) (i : Int),
       lookupList (buildIndex anns) i =
         (anns.filter (fun a => a.image_id == i)).map recordOf) ∧
    buildIndex exGroup =
      [(5, [{ caption := "a", foil := false }, { caption := "b", foil := true }]),
       (7, [{ caption := "c", foil := false }])] := by
  constructor
  · intro anns i
    have h := lookupList_foldl anns [] i
    simpa [buildIndex, lookupList] using h
  · rfl

/-- C3: `length()` returns the number of distinct image ids of the
annotation index, not the number of annotation records: on an
annotations file whose records have image ids `[1, 1]` (two records),
`length()` returns 1. -/
theorem C3_length_distinct :
    (∀ (anns : List RawAnn) (maxLen pad : Nat),
       lenOf (datasetOf anns maxLen pad) =
         (firstOccurrences (anns.map (fun a => a.image_id))).length) ∧
    lenOf (datasetOf exDup 20 0) = 1 ∧ exDup.length = 2 := by
  refine ⟨?_, rfl, rfl⟩
  intro anns maxLen pad
  show (anns.foldl insertAnn []).length = _
  rw [← List.length_map (anns.foldl insertAnn []) Prod.fst, keys_foldl anns []]
  rfl

/-- C9: the addressable key order captured at construction is the order
of first occurrence of each distinct `image_id` in the annotations
input, and the index-resolution step of `get(i)` yields the image id
whose first annotation appears i-th among the distinct image ids. -/
theorem C9_key_order (anns : List RawAnn) (maxLen pad : Nat) :
    (datasetOf anns maxLen pad).image_ids =
      firstOccurrences (anns.map (fun a => a.image_id)) ∧
    ∀ i : Nat, i < lenOf (datasetOf anns maxLen pad) →
      ∃ n, pyListGet (datasetOf anns maxLen pad).image_ids (i : Int) = .ok n ∧
        (firstOccurrences (anns.map (fun a => a.image_id))).get? i = some n := by
  have hkeys : (datasetOf anns maxLen pad).image_ids =
      firstOccurrences (anns.map (fun a => a.image_id)) := by
    show (anns.foldl insertAnn []).map Prod.fst = _
    rw [keys_foldl anns []]
    rfl
  refine ⟨hkeys, ?_⟩
  intro i hi
  have hlen : i < (datasetOf anns maxLen pad).image_ids.length := by
    show i < ((buildIndex anns).map Prod.fst).length
    rw [List.length_map]
    exact hi
  rcases pyListGet_nonneg _ i hlen with ⟨a, h1, h2⟩
  refine ⟨a, h1, ?_⟩
  rw [← hkeys]
  exact h2

/-- C9 witness: at the two-image example, index 0 resolves to the first
distinct image id. -/
theorem C9_key_order_witness :
    ∃ n, pyListGet (datasetOf exTwo 20 0).image_ids ((0 : Nat) : Int) = .ok n ∧
      (firstOccurrences (exTwo.map (fun a => a.image_id))).get? 0 = some n :=
  (C9_key_order exTwo 20 0).2 0 (by decide)

/-- C10: a negative index `-k` with `1 ≤ k ≤ length()` is not rejected:
the Python list subscript resolves it to the k-th-from-last image id of
the key order, and `get(-k)` never fails with the out-of-range error. -/
theorem C10_negative_index (anns : List RawAnn) (maxLen pad : Nat)
    (reader : FeaturesReader) (k : Nat) (h1 : 1 ≤ k)
    (h2 : k ≤ lenOf (datasetOf anns maxLen pad)) :
    (∃ n, pyListGet (datasetOf anns maxLen pad).image_ids (-(k : Int)) = .ok n ∧
       (datasetOf anns maxLen pad).image_ids.get?
         (lenOf (datasetOf anns maxLen pad) - k) = some n) ∧
    getitem (datasetOf anns maxLen pad) reader (-(k : Int)) ≠ .error .indexError := by
  have hlen : (datasetOf anns maxLen pad).image_ids.length
      = lenOf (datasetOf anns maxLen pad) := by
    show ((buildIndex anns).map Prod.fst).length = (buildIndex anns).length
    exact List.length_map _ _
  have h2' : k ≤ (datasetOf anns maxLen pad).image_ids.length := by
    rw [hlen]
    exact h2
  rcases pyListGet_neg (datasetOf anns maxLen pad).image_ids k h1 h2' with ⟨a, ha1, ha2⟩
  constructor
  · refine ⟨a, ha1, ?_⟩
    rw [← hlen]
    exact ha2
  · apply getitem_ne_indexError
    refine ⟨a, ha1, ?_⟩
    exact List.get?_mem ha2

/-- C10 witness: at the two-image example, index -1 resolves to the
last image id and `get(-1)` does not fail with the out-of-range error. -/
theorem C10_negative_index_witness :
    (∃ n, pyListGet (datasetOf exTwo 20 0).image_ids (-((1 : Nat) : Int)) = .ok n ∧
       (datasetOf exTwo 20 0).image_ids.get?
         (lenOf (datasetOf exTwo 20 0) - 1) = some n) ∧
    getitem (datasetOf exTwo 20 0) exReaderTwo (-((1 : Nat) : Int))
      ≠ .error .indexError :=
  C10_negative_index exTwo 20 0 exReaderTwo 1 (by decide) (by decide)

/-- C2: with the reserved `[UNK]` entry present in the vocabulary, the
per-caption encoding always yields exactly `max_length` ids: the prefix
of the `[CLS]...[SEP]`-wrapped, vocab-mapped sequence when that sequence
is at least `max_length` long, and otherwise that sequence preceded by
`max_length - n` copies of the padding id (padding at the front). -/
theorem C2_encode_shape (tk : Tokenizer) (maxLen pad : Nat) (caption : String)
    (h : "[UNK]" ∈ tk.vocab.map Prod.fst) :
    ∃ out, encode tk maxLen pad caption = .ok out ∧
      out.length = maxLen ∧
      (maxLen ≤ (fullIds tk caption).length → out = (fullIds tk caption).take maxLen) ∧
      ((fullIds tk caption).length < maxLen →
        out = List.replicate (maxLen - (fullIds tk caption).length) pad
          ++ fullIds tk caption) := by
  have hU : (tk.vocab.find? (fun p => p.1 == "[UNK]")).isSome := by
    rw [List.find?_isSome]
    rcases List.mem_map.mp h with ⟨p, hp, hpk⟩
    exact ⟨p, hp, by simp [hpk]⟩
  by_cases hlen : (fullIds tk caption).length < maxLen
  · refine ⟨List.replicate (maxLen - (fullIds tk caption).length) pad
      ++ fullIds tk caption, ?_, ?_, ?_, fun _ => rfl⟩
    · rw [encode_eq tk maxLen pad caption hU]
      simp only [hlen, if_true]
    · rw [List.length_append, List.length_replicate]
      omega
    · intro hge
      omega
  · refine ⟨(fullIds tk caption).take maxLen, ?_, ?_, fun _ => rfl, ?_⟩
    · rw [encode_eq tk maxLen pad caption hU]
      simp only [hlen, if_false]
    · rw [List.length_take]
      omega
    · intro hlt
      exact absurd hlt hlen

/-- C2 witness: a concrete tokenizer and caption, with `max_length`
below the wrapped sequence length. -/
theorem C2_encode_shape_witness :
    ∃ out, encode exTokenizer 3 0 "a dog" = .ok out ∧
      out.length = 3 ∧
      (3 ≤ (fullIds exTokenizer "a dog").length →
        out = (fullIds exTokenizer "a dog").take 3) ∧
      ((fullIds exTokenizer "a dog").length < 3 →
        out = List.replicate (3 - (fullIds exTokenizer "a dog").length) 0
          ++ fullIds exTokenizer "a dog") :=
  C2_encode_shape exTokenizer 3 0 "a dog" (by decide)

/-- C6: a token present in the vocabulary maps to its id; a token absent
from the vocabulary maps to the id the vocabulary gives `[UNK]`; and
with the reserved `[UNK]` entry present (guaranteed by §6), the lookup
always succeeds, for any token string. -/
theorem C6_vocab_fallback (vocab : List (String × Nat)) (w : String)
    (h : "[UNK]" ∈ vocab.map Prod.fst) :
    (∀ q, vocab.find? (fun p => p.1 == w) = some q → wordToId vocab w = .ok q.2) ∧
    (w ∉ vocab.map Prod.fst → wordToId vocab w = wordToId vocab "[UNK]") ∧
    (∃ n, wordToId vocab w = .ok n) := by
  have hU : (vocab.find? (fun p => p.1 == "[UNK]")).isSome := by
    rw [List.find?_isSome]
    rcases List.mem_map.mp h with ⟨p, hp, hpk⟩
    exact ⟨p, hp, by simp [hpk]⟩
  refine ⟨?_, ?_, ?_⟩
  · intro q hq
    unfold wordToId
    rw [hq]
  · intro habs
    have hnone : vocab.find? (fun p => p.1 == w) = none := by
      rw [List.find?_eq_none]
      intro p hp hpw
      exact habs (List.mem_map.mpr ⟨p, hp, by simpa using hpw⟩)
    unfold wordToId
    rw [hnone]
    rcases hu : vocab.find? (fun p => p.1 == "[UNK]") with _ | q <;> rw [hu]
  · rcases hw : vocab.find? (fun p => p.1 == w) with _ | q
    · rcases hu : vocab.find? (fun p => p.1 == "[UNK]") with _ | q2
      · exfalso
        rw [hu] at hU
        simp at hU
      · unfold wordToId
        rw [hw, hu]
        exact ⟨q2.2, rfl⟩
    · unfold wordToId
      rw [hw]
      exact ⟨q.2, rfl⟩

/-- C6 witness: an out-of-vocabulary token resolves to the `[UNK]` id
without failing. -/
theorem C6_vocab_fallback_witness :
    ∃ n, wordToId [("[UNK]", 3)] "zzz" = .ok n :=
  (C6_vocab_fallback [("[UNK]", 3)] "zzz" (by decide)).2.2

/-- C7: `build_index` fails with a ParseError-class failure when the
input is not valid JSON or the parsed document lacks the top-level
`"annotations"` key, and either failure propagates out of the
constructor immediately. -/
theorem C7_parse_failure :
    (∃ e, loadAnnotations .invalid = .error e ∧ IsParseError e = true) ∧
    (∃ e, loadAnnotations (.doc none) = .error e ∧ IsParseError e = true) ∧
    ∀ (tk : Tokenizer) (maxLen pad : Nat),
      construct .invalid tk maxLen pad = .error .jsonDecodeError ∧
      construct (.doc none) tk maxLen pad = .error .keyError :=
  ⟨⟨.jsonDecodeError, rfl, rfl⟩, ⟨.keyError, rfl, rfl⟩, fun _ _ _ => ⟨rfl, rfl⟩⟩

/-- C8: construction raises (a `TypeError` from the tokenization pass,
which iterates the index's integer keys and subscripts them as if they
were records) for every annotations array with at least one record, and
completes successfully exactly when the annotation index is empty. -/
theorem C8_tokenize_pass_crashes (anns : List RawAnn) (tk : Tokenizer)
    (maxLen pad : Nat) :
    (anns ≠ [] → construct (.doc (some anns)) tk maxLen pad = .error .typeError) ∧
    (anns = [] → construct (.doc (some anns)) tk maxLen pad
      = .ok (datasetOf [] maxLen pad)) := by
  constructor
  · intro hne
    rw [construct_doc_some]
    rcases anns with _ | ⟨a, rest⟩
    · exact absurd rfl hne
    · rcases hidx : buildIndex (a :: rest) with _ | ⟨p, restE⟩
      · exact absurd hidx (buildIndex_cons_ne_nil a rest)
      · rw [tokenizeRun_cons, bind_error_eq]
  · intro he
    subst he
    rfl

/-- C8 witness: a one-record annotations array crashes construction with
`TypeError`; the empty array constructs the empty dataset. -/
theorem C8_tokenize_pass_crashes_witness :
    construct (.doc (some exSingle)) exTokenizer 20 0 = .error .typeError ∧
    construct (.doc (some ([] : List RawAnn))) exTokenizer 20 0
      = .ok (datasetOf [] 20 0) :=
  ⟨(C8_tokenize_pass_crashes exSingle exTokenizer 20 0).1 (by decide),
   (C8_tokenize_pass_crashes [] exTokenizer 20 0).2 rfl⟩

/-- C1: evaluated on the §8 example (two records for image id 1, the
feature store holding that id), the code contradicts the claim:
construction itself raises `TypeError`, and `__getitem__` at the valid
index 0 on the line-41/53 state also raises `TypeError` — from
`entry["caption"]` subscripting the per-image list of records — instead
of returning the (features, null-spatials, first record's encoded
caption, label) 4-tuple. -/
theorem C1_get_no_tuple :
    construct (.doc (some exDup)) exTokenizer 20 0 = .error .typeError ∧
    0 < lenOf (datasetOf exDup 20 0) ∧
    getitem (datasetOf exDup 20 0) exReader 0 = .error .typeError := by
  refine ⟨by decide, by decide, by decide⟩

/-- C4: evaluated on a well-formed two-image example whose every image id
is present in the feature store, the code contradicts the claim: the
in-range index 0 raises `TypeError` (so `get(i)` with `0 ≤ i < length()`
does raise), and the out-of-range index -1 does not raise the
out-of-range error. -/
theorem C4_range_check_fails :
    0 < lenOf (datasetOf exTwo 20 0) ∧
    ((datasetOf exTwo 20 0).image_ids.all
      (fun j => (exReaderTwo.map Prod.fst).contains j)) = true ∧
    getitem (datasetOf exTwo 20 0) exReaderTwo 0 = .error .typeError ∧
    getitem (datasetOf exTwo 20 0) exReaderTwo (-1) ≠ .error .indexError := by
  refine ⟨by decide, by decide, by decide, by decide⟩

end FoilDataset
